import Mathlib

/-!
Verification of the bounded time-series accumulator (`Series`) and the
dual-axis frame composer (`RealtimeGraph.redraw`) of the acwx repository.

The Python code is shallowly embedded: samples and bounds are rationals,
Python `None` is `Option.none`, and Python-2 ordering (where `None`
compares below every number) is made explicit by `py2lt`.  Presentation
attributes of a series (`name`, `color`, `format`) play no role in the
claims and are omitted from the record.
-/

namespace ACWX

/-- Python-2 `<` on optional numbers: `None` compares below every number. -/
def py2lt : Option ℚ → Option ℚ → Bool
  | none, none => false
  | none, some _ => true
  | some _, none => false
  | some a, some b => decide (a < b)

/-- Embedding of `acwx.wx.graph.series.Series`.  The fields `cxmin` …
`cymax` embed the private `_xmin` … `_ymax` hard-clamp attributes fixed at
construction; `xmin` … `ymax` are the live bounding-box fields. -/
@[ext]
structure Series where
  min_width : ℚ
  min_height : ℚ
  cxmin : Option ℚ
  cxmax : Option ℚ
  cymin : Option ℚ
  cymax : Option ℚ
  xmin : Option ℚ
  xmax : Option ℚ
  ymin : Option ℚ
  ymax : Option ℚ
  X : List ℚ
  Y : List ℚ
  empty : Bool
  axis : ℕ
  deriving Repr, DecidableEq

/-- Constructor `Series.__init__` with no initial `X`/`Y` data: the live bounding-box
fields start equal to the hard clamps, the sample lists start out empty,
`empty` starts `True`. -/
def mkSeries (axis : ℕ) (xmin xmax ymin ymax : Option ℚ)
    (min_width min_height : ℚ) : Series :=
  { min_width := min_width, min_height := min_height,
    cxmin := xmin, cxmax := xmax, cymin := ymin, cymax := ymax,
    xmin := xmin, xmax := xmax, ymin := ymin, ymax := ymax,
    X := [], Y := [], empty := true, axis := axis }

/-- One dimension of `Series.initial_point`: the two `is None` blocks for
the lower bound and the trailing `is None` block for the upper bound. -/
def init_bounds (lo hi : Option ℚ) (v width : ℚ) : Option ℚ × Option ℚ :=
  match lo, hi with
  | none, none => (some (v + width / 2 - width), some (v + width / 2))
  | none, some b => (some (b - width), some b)
  | some a, none => (some a, some (a + width))
  | some a, some b => (some a, some b)

/-- Method `Series.initial_point`: fills any unset bounding-box field from the
first point and the configured minimum width/height, then clears `empty`. -/
def initial_point (s : Series) (x y : ℚ) : Series :=
  let xb := init_bounds s.xmin s.xmax x s.min_width
  let yb := init_bounds s.ymin s.ymax y s.min_height
  { s with xmin := xb.1, xmax := xb.2, ymin := yb.1, ymax := yb.2, empty := false }

/-- One dimension of the running-bounds update in `Series.add_point`:
`if v < lo: lo = v elif hi < v: hi = v`, with Python-2 `None` ordering. -/
def bound_update (lo hi : Option ℚ) (v : ℚ) : Option ℚ × Option ℚ :=
  if py2lt (some v) lo then (some v, hi)
  else if py2lt hi (some v) then (lo, some v)
  else (lo, hi)

/-- Method `Series.add_point`: initializes the box on the first point, appends the
sample to both lists, then updates the running min/max in O(1). -/
def add_point (s0 : Series) (x y : ℚ) : Series :=
  let s1 := if s0.empty then initial_point s0 x y else s0
  let xb := bound_update s1.xmin s1.xmax x
  let yb := bound_update s1.ymin s1.ymax y
  { s1 with X := s1.X ++ [x], Y := s1.Y ++ [y],
            xmin := xb.1, xmax := xb.2, ymin := yb.1, ymax := yb.2 }

/-- A sequence of `add_point` calls. -/
def addAll (s : Series) (ps : List (ℚ × ℚ)) : Series :=
  ps.foldl (fun t p => add_point t p.1 p.2) s

/-- Minimum of a nonempty list (junk value 0 on `[]`, matching the fact that
Python `min([])` is never reached by the embedded code). -/
def listMin : List ℚ → ℚ
  | [] => 0
  | x :: xs => xs.foldl min x

/-- Maximum of a nonempty list (junk value 0 on `[]`). -/
def listMax : List ℚ → ℚ
  | [] => 0
  | x :: xs => xs.foldl max x

/-- Lower hard clamp of `Series.recompute_bbox`:
`if clamp is not None and v > clamp: v = clamp`. -/
def clampLo (c : Option ℚ) (v : ℚ) : ℚ :=
  match c with
  | some a => if a < v then a else v
  | none => v

/-- Upper hard clamp of `Series.recompute_bbox`:
`if clamp is not None and v < clamp: v = clamp`. -/
def clampHi (c : Option ℚ) (v : ℚ) : ℚ :=
  match c with
  | some a => if v < a then a else v
  | none => v

/-- Method `Series.recompute_bbox`: on an empty retained window only sets `empty`;
otherwise recomputes min/max from the data, applies the hard clamps
(widening only), and then widens to the configured minimum width/height
about the midpoint of the clamped box. -/
def recompute_bbox (s : Series) : Series :=
  if s.X.length = 0 then { s with empty := true }
  else
    let xm := clampLo s.cxmin (listMin s.X)
    let xM := clampHi s.cxmax (listMax s.X)
    let ym := clampLo s.cymin (listMin s.Y)
    let yM := clampHi s.cymax (listMax s.Y)
    let xmid := (xm + xM) / 2
    let ymid := (ym + yM) / 2
    { s with
      xmin := some (min xm (xmid - s.min_width / 2)),
      xmax := some (max xM (xmid + s.min_width / 2)),
      ymin := some (min ym (ymid - s.min_height / 2)),
      ymax := some (max yM (ymid + s.min_height / 2)) }

/-- Python slice `xs[-n:]` for a nonnegative count `n`: for `n = 0` the
slice is `xs[0:]`, the whole list. -/
def pySliceCount (n : ℕ) (xs : List ℚ) : List ℚ :=
  if n = 0 then xs else xs.drop (xs.length - n)

/-- Method `Series.trim_to_count`: keep the Python slice `[-n:]` of both sample
lists and recompute the bounding box. -/
def trim_to_count (s : Series) (n : ℕ) : Series :=
  recompute_bbox { s with X := pySliceCount n s.X, Y := pySliceCount n s.Y }

/-- Python slice `xs[a:b]` for nonnegative indices. -/
def pySlice (a b : ℕ) (xs : List ℚ) : List ℚ :=
  (xs.take b).drop a

/-- The backward scan of `Series.trim_to_domain`: first index `i`, counting
down from the start argument and stopping strictly above `a`, with
`X[i] ≤ x2` (Python `range(len(X)-1, a, -1)`). -/
def findLastLe (X : List ℚ) (x2 : ℚ) (a : ℕ) : ℕ → Option ℕ
  | 0 => none
  | i + 1 =>
    if i + 1 ≤ a then none
    else if X.getD (i + 1) 0 ≤ x2 then some (i + 1)
    else findLastLe X x2 a i

/-- Method `Series.trim_to_domain`: forward scan for the first index with
`x ≥ x1` (no match keeps the empty slice `[0:0]`), backward scan for the
last index strictly after it with `x ≤ x2` (no match keeps through the end
of the list), then slice and recompute the bounding box. -/
def trim_to_domain (s : Series) (x1 x2 : ℚ) : Series :=
  let ab : ℕ × ℕ :=
    match s.X.findIdx? (fun x => decide (x1 ≤ x)) with
    | none => (0, 0)
    | some a =>
      match findLastLe s.X x2 a (s.X.length - 1) with
      | none => (a, s.X.length)
      | some j => (a, j + 1)
  recompute_bbox { s with X := pySlice ab.1 ab.2 s.X, Y := pySlice ab.1 ab.2 s.Y }

/-- A mutable 4-element bounding box `[x0, y0, x1, y1]`, any entry nullable. -/
structure Box where
  x0 : Option ℚ
  y0 : Option ℚ
  x1 : Option ℚ
  y1 : Option ℚ
  deriving Repr, DecidableEq

/-- The all-`None` box `[None]*4`. -/
def Box.unset : Box := ⟨none, none, none, none⟩

/-- Method `Series.update_bbox`: merge this series' live bounds into a box,
element-wise min for minima and max for maxima, a `None` entry being
replaced outright (Python-2 ordering for the comparisons). -/
def update_bbox (s : Series) (b : Box) : Box :=
  { x0 := if b.x0 = none || py2lt s.xmin b.x0 then s.xmin else b.x0,
    y0 := if b.y0 = none || py2lt s.ymin b.y0 then s.ymin else b.y0,
    x1 := if b.x1 = none || py2lt b.x1 s.xmax then s.xmax else b.x1,
    y1 := if b.y1 = none || py2lt b.y1 s.ymax then s.ymax else b.y1 }

/-- State of `RealtimeGraph` relevant to `redraw`.  `ypad`/`ypad2` hold the
values resolved by the constructor's `ypad or pad` coalescing. -/
structure Graph where
  series : List Series
  bbox : Box
  bbox2 : Box
  init_bbox : Box
  init_bbox2 : Box
  xpad : ℚ
  ypad : ℚ
  ypad2 : ℚ

/-- Flag `axes[i]` after the redraw loop: whether any series targets axis `i`. -/
def axesFlag (g : Graph) (i : ℕ) : Bool :=
  g.series.any (fun s => s.axis == i)

/-- Box `boxes[i]` after the redraw loop: the corresponding initial box with
every series of axis `i` merged in, in series order. -/
def mergedBox (g : Graph) (i : ℕ) : Box :=
  g.series.foldl (fun b s => if s.axis == i then update_bbox s b else b)
    (if i == 0 then g.init_bbox else g.init_bbox2)

/-- Python-2 `min` of two optional numbers (`None` below every number). -/
def pymin2 (a b : Option ℚ) : Option ℚ := if py2lt b a then b else a

/-- Python-2 `max` of two optional numbers (`None` below every number). -/
def pymax2 (a b : Option ℚ) : Option ℚ := if py2lt a b then b else a

/-- Function `coalesce` of graph.py restricted to a two-argument call whose last
argument is a plain number. -/
def coalesce (a : Option ℚ) (b : ℚ) : ℚ :=
  match a with
  | some v => v
  | none => b

/-- Constant `EPS = 10 * sys.float_info.epsilon`: the zero-width guard constant. -/
def EPS : ℚ := 10 / 2 ^ 52

/-- Result of the shared-x-bound computation of `redraw`: the silent
no-series path, a Python `TypeError` from arithmetic on `None`, or the
computed bound. -/
inductive RedrawX where
  | noop : RedrawX
  | err : RedrawX
  | ok : ℚ → ℚ → RedrawX
  deriving Repr, DecidableEq

/-- Lines 96–107 of graph.py: the shared x-bound.  Arguments of `coalesce`
are evaluated eagerly, so a `None` inside the min/max arithmetic raises
even when an override is present. -/
def redrawX (g : Graph) : RedrawX :=
  if axesFlag g 1 && axesFlag g 0 then
    match pymin2 (mergedBox g 0).x0 (mergedBox g 1).x0 with
    | none => RedrawX.err
    | some m =>
      let xmin := coalesce g.bbox2.x0 (coalesce g.bbox.x0 (m - g.xpad))
      match pymax2 (mergedBox g 0).x1 (mergedBox g 1).x1 with
      | none => RedrawX.err
      | some M =>
        RedrawX.ok xmin (max (xmin + EPS) (coalesce g.bbox2.x1 (coalesce g.bbox.x1 (M + g.xpad))))
  else if axesFlag g 0 then
    match (mergedBox g 0).x0 with
    | none => RedrawX.err
    | some m =>
      let xmin := coalesce g.bbox.x0 (m - g.xpad)
      match (mergedBox g 0).x1 with
      | none => RedrawX.err
      | some M => RedrawX.ok xmin (max (xmin + EPS) (coalesce g.bbox.x1 (M + g.xpad)))
  else if axesFlag g 1 then
    match (mergedBox g 1).x0 with
    | none => RedrawX.err
    | some m =>
      let xmin := coalesce g.bbox2.x0 (m - g.xpad)
      match (mergedBox g 1).x1 with
      | none => RedrawX.err
      | some M => RedrawX.ok xmin (max (xmin + EPS) (coalesce g.bbox2.x1 (M + g.xpad)))
  else RedrawX.noop

/-- Outcome of a full `redraw`: no-op, `TypeError`, or the
`(xmin, xmax, ymin, ymax)` window applied to each active axis. -/
inductive RedrawResult where
  | noop : RedrawResult
  | err : RedrawResult
  | update : Option (ℚ × ℚ × ℚ × ℚ) → Option (ℚ × ℚ × ℚ × ℚ) → RedrawResult
  deriving Repr, DecidableEq

/-- Method `RealtimeGraph.redraw`: the shared x-bound followed by the per-axis
y-bounds (lines 109–120 of graph.py). -/
def redraw (g : Graph) : RedrawResult :=
  match redrawX g with
  | RedrawX.noop => RedrawResult.noop
  | RedrawX.err => RedrawResult.err
  | RedrawX.ok xmin xmax =>
    if axesFlag g 0 then
      match (mergedBox g 0).y0 with
      | none => RedrawResult.err
      | some m =>
        let ymin := coalesce g.bbox.y0 (m - g.ypad)
        match (mergedBox g 0).y1 with
        | none => RedrawResult.err
        | some M =>
          let ymax := max (ymin + EPS) (coalesce g.bbox.y1 (M + g.ypad))
          if axesFlag g 1 then
            match (mergedBox g 1).y0 with
            | none => RedrawResult.err
            | some m2 =>
              let ymin2 := coalesce g.bbox2.y0 (m2 - g.ypad2)
              match (mergedBox g 1).y1 with
              | none => RedrawResult.err
              | some M2 =>
                RedrawResult.update (some (xmin, xmax, ymin, ymax))
                  (some (xmin, xmax, ymin2, max (ymin2 + EPS) (coalesce g.bbox2.y1 (M2 + g.ypad2))))
          else RedrawResult.update (some (xmin, xmax, ymin, ymax)) none
    else
      match (mergedBox g 1).y0 with
      | none => RedrawResult.err
      | some m2 =>
        let ymin2 := coalesce g.bbox2.y0 (m2 - g.ypad2)
        match (mergedBox g 1).y1 with
        | none => RedrawResult.err
        | some M2 =>
          RedrawResult.update none
            (some (xmin, xmax, ymin2, max (ymin2 + EPS) (coalesce g.bbox2.y1 (M2 + g.ypad2))))

/-- A fresh series carrying only hard clamp values (no data points yet). -/
def clampedSeries (axis : ℕ) (x0 x1 y0 y1 : ℚ) : Series :=
  mkSeries axis (some x0) (some x1) (some y0) (some y1) 1 1

/-- A graph with the given series, no overrides, no initial boxes, no padding. -/
def plainGraph (ss : List Series) : Graph :=
  ⟨ss, Box.unset, Box.unset, Box.unset, Box.unset, 0, 0, 0⟩

/-- The per-call invariant of a series being fed through `add_point`: both
sample lists stay index-aligned, the series is non-empty, all four live
bounding-box fields are set, ordered, and enclose every sample. -/
def SeriesInv (s : Series) : Prop :=
  s.X.length = s.Y.length ∧ s.empty = false ∧
  (∃ xm xM, s.xmin = some xm ∧ s.xmax = some xM ∧ xm ≤ xM ∧
    ∀ a ∈ s.X, xm ≤ a ∧ a ≤ xM) ∧
  (∃ ym yM, s.ymin = some ym ∧ s.ymax = some yM ∧ ym ≤ yM ∧
    ∀ b ∈ s.Y, ym ≤ b ∧ b ≤ yM)

/-- A clamp pair is consistently ordered whenever both ends are given. -/
def orderedClamps (lo hi : Option ℚ) : Prop :=
  ∀ a b, lo = some a → hi = some b → a ≤ b

/-- Merge of a series minimum into a nullable box entry. -/
def omin (a : ℚ) : Option ℚ → ℚ
  | none => a
  | some v => min a v

/-- Merge of a series maximum into a nullable box entry. -/
def omax (a : ℚ) : Option ℚ → ℚ
  | none => a
  | some v => max a v

/-- The bounding box a series must carry after a trim that left data: the
min/max of the retained data, widened (never narrowed) to include each hard
clamp, then widened symmetrically about the midpoint of the clamped box
until at least `min_width`/`min_height` wide. -/
def trimmedBoxOK (t : Series) : Prop :=
  ∃ xm xM ym yM,
    xm = clampLo t.cxmin (listMin t.X) ∧
    xM = clampHi t.cxmax (listMax t.X) ∧
    ym = clampLo t.cymin (listMin t.Y) ∧
    yM = clampHi t.cymax (listMax t.Y) ∧
    t.xmin = some (min xm ((xm + xM) / 2 - t.min_width / 2)) ∧
    t.xmax = some (max xM ((xm + xM) / 2 + t.min_width / 2)) ∧
    t.ymin = some (min ym ((ym + yM) / 2 - t.min_height / 2)) ∧
    t.ymax = some (max yM ((ym + yM) / 2 + t.min_height / 2)) ∧
    xm ≤ listMin t.X ∧ listMax t.X ≤ xM ∧
    ym ≤ listMin t.Y ∧ listMax t.Y ≤ yM ∧
    (∀ c, t.cxmin = some c → min xm ((xm + xM) / 2 - t.min_width / 2) ≤ c) ∧
    (∀ c, t.cxmax = some c → c ≤ max xM ((xm + xM) / 2 + t.min_width / 2)) ∧
    (∀ c, t.cymin = some c → min ym ((ym + yM) / 2 - t.min_height / 2) ≤ c) ∧
    (∀ c, t.cymax = some c → c ≤ max yM ((ym + yM) / 2 + t.min_height / 2)) ∧
    t.min_width ≤
      max xM ((xm + xM) / 2 + t.min_width / 2) - min xm ((xm + xM) / 2 - t.min_width / 2) ∧
    t.min_height ≤
      max yM ((ym + yM) / 2 + t.min_height / 2) - min ym ((ym + yM) / 2 - t.min_height / 2)

/-- A series constructed with the contradictory clamp pair `xmin=10, xmax=0`. -/
def sInconsistent : Series := mkSeries 0 (some 10) (some 0) none none 1 1

/-- A monotone two-point series `X = [1, 5]`. -/
def sMono : Series := addAll (mkSeries 0 none none none none 1 1) [(1, 0), (5, 0)]

/-- A five-point series. -/
def sFive : Series :=
  addAll (mkSeries 0 none none none none 1 1) [(1, 1), (2, 2), (3, 3), (4, 4), (5, 5)]

/-- A one-point series at `x = 10` with hard clamp `xmin = 0` and
`min_width = 100`. -/
def sClampWide : Series := add_point (mkSeries 0 (some 0) none none none 100 1) 10 0

/-- The documented three-point scenario `(0,0), (1,5), (2,3)` with
`min_width = min_height = 1` and no clamps. -/
def sThree : Series :=
  addAll (mkSeries 0 none none none none 1 1) [(0, 0), (1, 5), (2, 3)]

/-- Two clamped series on the two axes with x-ranges `[0,10]` and `[5,20]`. -/
def gUnion : Graph :=
  plainGraph [clampedSeries 0 0 10 0 1, clampedSeries 1 5 20 0 1]

/-- Two clamped series on the two axes with coinciding degenerate x-ranges. -/
def gCoincide : Graph :=
  plainGraph [clampedSeries 0 5 5 0 1, clampedSeries 1 5 5 0 1]

/-- A graph holding one series that has clamp values but no data points. -/
def gPointless : Graph := plainGraph [clampedSeries 0 0 10 0 1]

/-- A graph with no series at all. -/
def gNoSeries : Graph := plainGraph []

/-- Graph `gUnion` with x-overrides in both the primary and the secondary box. -/
def gOverride : Graph :=
  { plainGraph [clampedSeries 0 0 10 0 1, clampedSeries 1 5 20 0 1] with
    bbox := ⟨some 100, none, some 200, none⟩,
    bbox2 := ⟨some 1, none, some 9, none⟩ }

/-! ### Helper lemmas -/

theorem update_lo (sv : ℚ) (e : Option ℚ) :
    (if e = none || py2lt (some sv) e then some sv else e) = some (omin sv e) := by
  cases e with
  | none => simp [omin]
  | some v =>
    by_cases h : sv < v
    · simp [py2lt, h, omin, min_eq_left h.le]
    · simp [py2lt, h, omin, min_eq_right (not_lt.mp h)]

theorem update_hi (sv : ℚ) (e : Option ℚ) :
    (if e = none || py2lt e (some sv) then some sv else e) = some (omax sv e) := by
  cases e with
  | none => simp [omax]
  | some v =>
    by_cases h : v < sv
    · simp [py2lt, h, omax, max_eq_left h.le]
    · simp [py2lt, h, omax, max_eq_right (not_lt.mp h)]

theorem recompute_bbox_X (t : Series) : (recompute_bbox t).X = t.X := by
  unfold recompute_bbox; split <;> rfl

theorem recompute_bbox_Y (t : Series) : (recompute_bbox t).Y = t.Y := by
  unfold recompute_bbox; split <;> rfl

theorem pySliceCount_idem (n : ℕ) (xs : List ℚ) :
    pySliceCount n (pySliceCount n xs) = pySliceCount n xs := by
  unfold pySliceCount
  by_cases hn : n = 0
  · simp [hn]
  · simp only [hn, if_false]
    have h1 : (xs.drop (xs.length - n)).length - n = 0 := by
      rw [List.length_drop]; omega
    rw [h1, List.drop_zero]

theorem recompute_bbox_idem (t : Series) :
    recompute_bbox (recompute_bbox t) = recompute_bbox t := by
  by_cases h : t.X.length = 0
  · simp [recompute_bbox, h]
  · simp [recompute_bbox, h]

/-! ### Claim theorems -/

/-- C8: for a series whose live bounds are all set, `update_bbox` merges
element-wise (min for minima, max for maxima, `None` entries replaced by
the series value), and no entry of the box moves inward. -/
theorem update_bbox_merge (s : Series) (b : Box) (sx sX sy sY : ℚ)
    (hx : s.xmin = some sx) (hX : s.xmax = some sX)
    (hy : s.ymin = some sy) (hY : s.ymax = some sY) :
    (update_bbox s b).x0 = some (omin sx b.x0) ∧
    (update_bbox s b).y0 = some (omin sy b.y0) ∧
    (update_bbox s b).x1 = some (omax sX b.x1) ∧
    (update_bbox s b).y1 = some (omax sY b.y1) ∧
    (∀ v, b.x0 = some v → omin sx b.x0 ≤ v) ∧
    (∀ v, b.y0 = some v → omin sy b.y0 ≤ v) ∧
    (∀ v, b.x1 = some v → v ≤ omax sX b.x1) ∧
    (∀ v, b.y1 = some v → v ≤ omax sY b.y1) := by
  refine ⟨?_, ?_, ?_, ?_, ?_, ?_, ?_, ?_⟩
  · show (if b.x0 = none || py2lt s.xmin b.x0 then s.xmin else b.x0) = _
    rw [hx]; exact update_lo sx b.x0
  · show (if b.y0 = none || py2lt s.ymin b.y0 then s.ymin else b.y0) = _
    rw [hy]; exact update_lo sy b.y0
  · show (if b.x1 = none || py2lt b.x1 s.xmax then s.xmax else b.x1) = _
    rw [hX]; exact update_hi sX b.x1
  · show (if b.y1 = none || py2lt b.y1 s.ymax then s.ymax else b.y1) = _
    rw [hY]; exact update_hi sY b.y1
  · intro v hv; rw [hv]; exact min_le_right sx v
  · intro v hv; rw [hv]; exact min_le_right sy v
  · intro v hv; rw [hv]; exact le_max_right sX v
  · intro v hv; rw [hv]; exact le_max_right sY v

/-- C8 witness: merging a clamped series into a concrete box. -/
theorem update_bbox_merge_witness :
    (update_bbox (clampedSeries 0 0 10 0 1) ⟨some 3, none, some 4, some 7⟩).x0 =
      some (omin 0 (some 3)) :=
  (update_bbox_merge (clampedSeries 0 0 10 0 1) ⟨some 3, none, some 4, some 7⟩
    0 10 0 1 rfl rfl rfl rfl).1

/-- C7: `trim_to_count` with a fixed count is idempotent on the whole
series state. -/
theorem trim_to_count_idem (s : Series) (n : ℕ) :
    trim_to_count (trim_to_count s n) n = trim_to_count s n := by
  unfold trim_to_count
  rw [recompute_bbox_X, recompute_bbox_Y]
  dsimp only
  rw [pySliceCount_idem, pySliceCount_idem]
  have hB : ({ recompute_bbox { s with X := pySliceCount n s.X, Y := pySliceCount n s.Y } with
        X := pySliceCount n s.X, Y := pySliceCount n s.Y } : Series) =
      recompute_bbox { s with X := pySliceCount n s.X, Y := pySliceCount n s.Y } := by
    apply Series.ext <;> try rfl
    · rw [recompute_bbox_X]
    · rw [recompute_bbox_Y]
  rw [hB]
  exact recompute_bbox_idem _

theorem init_bounds_sound (lo hi : Option ℚ) (v w : ℚ) (hw : 0 ≤ w)
    (hord : orderedClamps lo hi) :
    ∃ a b, init_bounds lo hi v w = (some a, some b) ∧ a ≤ b := by
  cases lo with
  | none =>
    cases hi with
    | none => exact ⟨v + w / 2 - w, v + w / 2, rfl, by linarith⟩
    | some c => exact ⟨c - w, c, rfl, by linarith⟩
  | some a =>
    cases hi with
    | none => exact ⟨a, a + w, rfl, by linarith⟩
    | some b => exact ⟨a, b, rfl, hord a b rfl rfl⟩

theorem bound_update_sound (lo hi : Option ℚ) (v : ℚ) (l : List ℚ) (a b : ℚ)
    (hlo : lo = some a) (hhi : hi = some b) (hab : a ≤ b)
    (hl : ∀ t ∈ l, a ≤ t ∧ t ≤ b) :
    ∃ a' b', bound_update lo hi v = (some a', some b') ∧ a' ≤ b' ∧
      ∀ t ∈ l ++ [v], a' ≤ t ∧ t ≤ b' := by
  subst hlo; subst hhi
  by_cases h1 : v < a
  · refine ⟨v, b, by simp [bound_update, py2lt, h1], by linarith, ?_⟩
    intro t ht
    rcases List.mem_append.1 ht with h | h
    · obtain ⟨h2, h3⟩ := hl t h
      exact ⟨by linarith, h3⟩
    · rw [List.mem_singleton.1 h]
      exact ⟨le_refl v, by linarith⟩
  · by_cases h2 : b < v
    · refine ⟨a, v, by simp [bound_update, py2lt, h1, h2], by linarith, ?_⟩
      intro t ht
      rcases List.mem_append.1 ht with h | h
      · obtain ⟨h3, h4⟩ := hl t h
        exact ⟨h3, by linarith⟩
      · rw [List.mem_singleton.1 h]
        exact ⟨by linarith, le_refl v⟩
    · refine ⟨a, b, by simp [bound_update, py2lt, h1, h2], hab, ?_⟩
      intro t ht
      rcases List.mem_append.1 ht with h | h
      · exact hl t h
      · rw [List.mem_singleton.1 h]
        exact ⟨by linarith, by linarith⟩

theorem add_point_inv (s : Series) (x y : ℚ) (h : SeriesInv s) :
    SeriesInv (add_point s x y) := by
  obtain ⟨hlen, hemp, ⟨xm, xM, hx1, hx2, hxord, hxin⟩, ⟨ym, yM, hy1, hy2, hyord, hyin⟩⟩ := h
  obtain ⟨a', b', hxeq, hxab, hxmem⟩ :=
    bound_update_sound s.xmin s.xmax x s.X xm xM hx1 hx2 hxord hxin
  obtain ⟨c', d', hyeq, hycd, hymem⟩ :=
    bound_update_sound s.ymin s.ymax y s.Y ym yM hy1 hy2 hyord hyin
  have hres : add_point s x y =
      { s with
        X := s.X ++ [x],
        Y := s.Y ++ [y],
        xmin := some a',
        xmax := some b',
        ymin := some c',
        ymax := some d' } := by
    unfold add_point
    rw [hemp]
    show ({ s with
      X := s.X ++ [x],
      Y := s.Y ++ [y],
      xmin := (bound_update s.xmin s.xmax x).1,
      xmax := (bound_update s.xmin s.xmax x).2,
      ymin := (bound_update s.ymin s.ymax y).1,
      ymax := (bound_update s.ymin s.ymax y).2 } : Series) = _
    rw [hxeq, hyeq]
    simp [hemp]
  rw [hres]
  exact ⟨by simp [hlen], hemp, ⟨a', b', rfl, rfl, hxab, by simpa using hxmem⟩,
    ⟨c', d', rfl, rfl, hycd, by simpa using hymem⟩⟩

theorem add_point_first (cx0 cx1 cy0 cy1 : Option ℚ) (w h x y : ℚ)
    (hw : 0 ≤ w) (hh : 0 ≤ h)
    (hcx : orderedClamps cx0 cx1) (hcy : orderedClamps cy0 cy1) :
    SeriesInv (add_point (mkSeries 0 cx0 cx1 cy0 cy1 w h) x y) := by
  obtain ⟨a, b, hxeq, hxab⟩ := init_bounds_sound cx0 cx1 x w hw hcx
  obtain ⟨c, d, hyeq, hycd⟩ := init_bounds_sound cy0 cy1 y h hh hcy
  obtain ⟨a', b', hxeq2, hxab2, hxmem⟩ :=
    bound_update_sound (some a) (some b) x [] a b rfl rfl hxab (by simp)
  obtain ⟨c', d', hyeq2, hycd2, hymem⟩ :=
    bound_update_sound (some c) (some d) y [] c d rfl rfl hycd (by simp)
  have hinit : initial_point (mkSeries 0 cx0 cx1 cy0 cy1 w h) x y =
      { mkSeries 0 cx0 cx1 cy0 cy1 w h with
        xmin := some a,
        xmax := some b,
        ymin := some c,
        ymax := some d,
        empty := false } := by
    show ({ mkSeries 0 cx0 cx1 cy0 cy1 w h with
      xmin := (init_bounds cx0 cx1 x w).1,
      xmax := (init_bounds cx0 cx1 x w).2,
      ymin := (init_bounds cy0 cy1 y h).1,
      ymax := (init_bounds cy0 cy1 y h).2,
      empty := false } : Series) = _
    rw [hxeq, hyeq]
  have hres : add_point (mkSeries 0 cx0 cx1 cy0 cy1 w h) x y =
      { mkSeries 0 cx0 cx1 cy0 cy1 w h with
        xmin := some a',
        xmax := some b',
        ymin := some c',
        ymax := some d',
        X := [x],
        Y := [y],
        empty := false } := by
    show (let s1 := initial_point (mkSeries 0 cx0 cx1 cy0 cy1 w h) x y;
      ({ s1 with
        X := s1.X ++ [x],
        Y := s1.Y ++ [y],
        xmin := (bound_update s1.xmin s1.xmax x).1,
        xmax := (bound_update s1.xmin s1.xmax x).2,
        ymin := (bound_update s1.ymin s1.ymax y).1,
        ymax := (bound_update s1.ymin s1.ymax y).2 } : Series)) = _
    rw [hinit]
    dsimp only
    rw [hxeq2, hyeq2]
    rfl
  rw [hres]
  exact ⟨rfl, rfl, ⟨a', b', rfl, rfl, hxab2, by simpa using hxmem⟩,
    ⟨c', d', rfl, rfl, hycd2, by simpa using hymem⟩⟩

theorem addAll_inv (ps : List (ℚ × ℚ)) (s : Series) (h : SeriesInv s) :
    SeriesInv (addAll s ps) := by
  induction ps generalizing s with
  | nil => exact h
  | cons p ps ih => exact ih (add_point s p.1 p.2) (add_point_inv s p.1 p.2 h)

/-- C1 (amended): a series created empty with nonnegative minimum
width/height and consistently ordered clamp pairs keeps, after every
`add_point` call, equal-length sample lists, a non-`None` ordered bounding
box enclosing every sample, and `empty = False`. -/
theorem add_point_bbox_invariant (cx0 cx1 cy0 cy1 : Option ℚ) (w h : ℚ)
    (hw : 0 ≤ w) (hh : 0 ≤ h)
    (hcx : orderedClamps cx0 cx1) (hcy : orderedClamps cy0 cy1)
    (ps : List (ℚ × ℚ)) (hps : ps ≠ []) :
    SeriesInv (addAll (mkSeries 0 cx0 cx1 cy0 cy1 w h) ps) := by
  match ps, hps with
  | p :: ps, _ =>
    show SeriesInv (addAll (add_point (mkSeries 0 cx0 cx1 cy0 cy1 w h) p.1 p.2) ps)
    exact addAll_inv ps _ (add_point_first cx0 cx1 cy0 cy1 w h p.1 p.2 hw hh hcx hcy)

/-- C1 witness: the invariant after one `add_point` on a default series. -/
theorem add_point_bbox_invariant_witness :
    SeriesInv (addAll (mkSeries 0 none none none none 1 1) [(0, 0)]) :=
  add_point_bbox_invariant none none none none 1 1 (by norm_num) (by norm_num)
    (fun a b ha _ => by cases ha) (fun a b ha _ => by cases ha)
    [(0, 0)] (by simp)

/-- C1 counterexample: with the contradictory clamp pair `xmin=10, xmax=0`
(an "arbitrary clamp configuration") a single `add_point(5, 0)` leaves
`xmax = 0` strictly below the sample `5`, refuting `xmax >= max(X)`. -/
theorem add_point_unordered_clamp_ce :
    (add_point sInconsistent 5 0).xmax = some 0 ∧
    (5 : ℚ) ∈ (add_point sInconsistent 5 0).X ∧ ¬ ((5 : ℚ) ≤ 0) := by
  norm_num [sInconsistent, add_point, initial_point, init_bounds, bound_update, py2lt, mkSeries]

/-- C5 (amended): with no clamps the first point centers a box of the
configured minimum width/height on the point itself — for both axes — so
the documented three-point scenario ends with box
`(-1/2, 2) × (-1/2, 5)`. -/
theorem first_point_box_rule (x y w h : ℚ) (hw : 0 ≤ w) (hh : 0 ≤ h) :
    ((add_point (mkSeries 0 none none none none w h) x y).xmin = some (x - w / 2) ∧
     (add_point (mkSeries 0 none none none none w h) x y).xmax = some (x + w / 2) ∧
     (add_point (mkSeries 0 none none none none w h) x y).ymin = some (y - h / 2) ∧
     (add_point (mkSeries 0 none none none none w h) x y).ymax = some (y + h / 2)) ∧
    (sThree.xmin = some (-(1 / 2)) ∧ sThree.xmax = some 2 ∧
     sThree.ymin = some (-(1 / 2)) ∧ sThree.ymax = some 5) := by
  constructor
  · have h1 : ¬ (x < x + w / 2 - w) := by linarith
    have h2 : ¬ (x + w / 2 < x) := by linarith
    have h3 : ¬ (y < y + h / 2 - h) := by linarith
    have h4 : ¬ (y + h / 2 < y) := by linarith
    refine ⟨?_, ?_, ?_, ?_⟩ <;>
      simp [add_point, initial_point, init_bounds, bound_update, py2lt, mkSeries,
        h1, h2, h3, h4] <;> ring
  · norm_num [sThree, addAll, add_point, initial_point, init_bounds, bound_update,
      py2lt, mkSeries]

/-- C5 witness: the centering rule evaluated at `(0,0)` with unit widths. -/
theorem first_point_box_rule_witness :
    (add_point (mkSeries 0 none none none none 1 1) 0 0).xmin = some (0 - 1 / 2) :=
  (first_point_box_rule 0 0 1 1 (by norm_num) (by norm_num)).1.1

/-- C5 counterexample: the claim pins `ymin = 0` after the documented three
adds, but the code applies the same centering rule to y, giving
`ymin = -1/2`. -/
theorem first_point_ymin_ce :
    sThree.ymin = some (-(1 / 2)) ∧ sThree.ymin ≠ some 0 := by
  have hy : sThree.ymin = some (-(1 / 2)) := by
    norm_num [sThree, addAll, add_point, initial_point, init_bounds, bound_update,
      py2lt, mkSeries]
  refine ⟨hy, ?_⟩
  rw [hy]
  norm_num

theorem clampLo_le (c : Option ℚ) (v : ℚ) : clampLo c v ≤ v := by
  cases c with
  | none => exact le_refl v
  | some a =>
    by_cases h : a < v
    · simp only [clampLo, if_pos h]; exact h.le
    · simp only [clampLo, if_neg h]; exact le_refl v

theorem clampHi_ge (c : Option ℚ) (v : ℚ) : v ≤ clampHi c v := by
  cases c with
  | none => exact le_refl v
  | some a =>
    by_cases h : v < a
    · simp only [clampHi, if_pos h]; exact h.le
    · simp only [clampHi, if_neg h]; exact le_refl v

theorem clampLo_le_clamp (a v : ℚ) : clampLo (some a) v ≤ a := by
  by_cases h : a < v
  · simp only [clampLo, if_pos h]; exact le_refl a
  · simp only [clampLo, if_neg h]; exact not_lt.mp h

theorem clampHi_ge_clamp (a v : ℚ) : a ≤ clampHi (some a) v := by
  by_cases h : v < a
  · simp only [clampHi, if_pos h]; exact le_refl a
  · simp only [clampHi, if_neg h]; exact not_lt.mp h

theorem recompute_box_ok (u : Series) (hu : u.X ≠ []) :
    trimmedBoxOK (recompute_bbox u) := by
  have hlen : ¬ u.X.length = 0 := by simpa [List.length_eq_zero] using hu
  have hrec : recompute_bbox u = { u with
      xmin := some (min (clampLo u.cxmin (listMin u.X))
        ((clampLo u.cxmin (listMin u.X) + clampHi u.cxmax (listMax u.X)) / 2 - u.min_width / 2)),
      xmax := some (max (clampHi u.cxmax (listMax u.X))
        ((clampLo u.cxmin (listMin u.X) + clampHi u.cxmax (listMax u.X)) / 2 + u.min_width / 2)),
      ymin := some (min (clampLo u.cymin (listMin u.Y))
        ((clampLo u.cymin (listMin u.Y) + clampHi u.cymax (listMax u.Y)) / 2 - u.min_height / 2)),
      ymax := some (max (clampHi u.cymax (listMax u.Y))
        ((clampLo u.cymin (listMin u.Y) + clampHi u.cymax (listMax u.Y)) / 2 + u.min_height / 2)) } := by
    unfold recompute_bbox
    rw [if_neg hlen]
  rw [hrec]
  refine ⟨clampLo u.cxmin (listMin u.X), clampHi u.cxmax (listMax u.X),
    clampLo u.cymin (listMin u.Y), clampHi u.cymax (listMax u.Y),
    rfl, rfl, rfl, rfl, rfl, rfl, rfl, rfl,
    clampLo_le u.cxmin (listMin u.X), clampHi_ge u.cxmax (listMax u.X),
    clampLo_le u.cymin (listMin u.Y), clampHi_ge u.cymax (listMax u.Y),
    ?_, ?_, ?_, ?_, ?_, ?_⟩
  · intro c hc
    refine le_trans (min_le_left _ _) ?_
    rw [hc]
    exact clampLo_le_clamp c (listMin u.X)
  · intro c hc
    refine le_trans ?_ (le_max_left _ _)
    rw [hc]
    exact clampHi_ge_clamp c (listMax u.X)
  · intro c hc
    refine le_trans (min_le_left _ _) ?_
    rw [hc]
    exact clampLo_le_clamp c (listMin u.Y)
  · intro c hc
    refine le_trans ?_ (le_max_left _ _)
    rw [hc]
    exact clampHi_ge_clamp c (listMax u.Y)
  · have h1 := min_le_right (clampLo u.cxmin (listMin u.X))
      ((clampLo u.cxmin (listMin u.X) + clampHi u.cxmax (listMax u.X)) / 2 - u.min_width / 2)
    have h2 := le_max_right (clampHi u.cxmax (listMax u.X))
      ((clampLo u.cxmin (listMin u.X) + clampHi u.cxmax (listMax u.X)) / 2 + u.min_width / 2)
    linarith
  · have h1 := min_le_right (clampLo u.cymin (listMin u.Y))
      ((clampLo u.cymin (listMin u.Y) + clampHi u.cymax (listMax u.Y)) / 2 - u.min_height / 2)
    have h2 := le_max_right (clampHi u.cymax (listMax u.Y))
      ((clampLo u.cymin (listMin u.Y) + clampHi u.cymax (listMax u.Y)) / 2 + u.min_height / 2)
    linarith

/-- C4 (amended): after either trim that leaves data, the bounding box is
the min/max of the retained data, widened (never narrowed) to include each
hard clamp, then widened to the minimum width/height about the midpoint of
the clamp-widened box (the data's midpoint only when no clamp moved it). -/
theorem trim_recompute_box_spec (s : Series) (x1 x2 : ℚ) (n : ℕ) :
    ((trim_to_domain s x1 x2).X ≠ [] → trimmedBoxOK (trim_to_domain s x1 x2)) ∧
    ((trim_to_count s n).X ≠ [] → trimmedBoxOK (trim_to_count s n)) := by
  constructor
  · intro hX
    unfold trim_to_domain at hX ⊢
    rw [recompute_bbox_X] at hX
    exact recompute_box_ok _ hX
  · intro hX
    unfold trim_to_count at hX ⊢
    rw [recompute_bbox_X] at hX
    exact recompute_box_ok _ hX

/-- C4 witness: the box specification holds after trimming the three-point
scenario series to its last point. -/
theorem trim_recompute_box_spec_witness :
    trimmedBoxOK (trim_to_count sThree 1) :=
  (trim_recompute_box_spec sThree 0 0 1).2 (by
    decide)

/-- C4 counterexample: data `[10]` with hard clamp `xmin = 0` and
`min_width = 100`: the min-width widening is centered on the clamped box's
midpoint `5`, producing `[-45, 55]`, not a box centered on the data's
midpoint `10`. -/
theorem trim_recompute_center_ce :
    (trim_to_count sClampWide 1).xmin = some (-45) ∧
    (trim_to_count sClampWide 1).xmax = some 55 ∧
    (trim_to_count sClampWide 1).X = [10] ∧
    (-45 : ℚ) + 55 ≠ 2 * 10 := by
  norm_num [sClampWide, trim_to_count, add_point, initial_point, init_bounds, bound_update,
    py2lt, mkSeries, recompute_bbox, pySliceCount, clampLo, clampHi, listMin, listMax]

/-- C2 (code bug): on the monotone series `X = [1, 5]`,
`trim_to_domain(0, 3)` retains both samples although `5 > 3`, contradicting
the documented "only points where x1 <= x <= x2". -/
theorem trim_to_domain_tail_overshoot :
    sMono.X = [1, 5] ∧ (trim_to_domain sMono 0 3).X = [1, 5] ∧ ¬ ((5 : ℚ) ≤ 3) := by
  decide

/-- C3 (code bug): `trim_to_count(0)` on a five-point series retains all
five samples (Python `X[-0:]` is the whole list) and leaves
`empty = False`, contradicting the documented "most recently added n
points". -/
theorem trim_to_count_zero_keeps_all :
    sFive.X.length = 5 ∧ (trim_to_count sFive 0).X = sFive.X ∧
    (trim_to_count sFive 0).empty = false := by
  decide

theorem pymin2_some (a b : ℚ) : pymin2 (some a) (some b) = some (min a b) := by
  by_cases h : b < a
  · simp [pymin2, py2lt, h, min_eq_right h.le]
  · simp [pymin2, py2lt, h, min_eq_left (not_lt.mp h)]

theorem pymax2_some (a b : ℚ) : pymax2 (some a) (some b) = some (max a b) := by
  by_cases h : a < b
  · simp [pymax2, py2lt, h, max_eq_right h.le]
  · simp [pymax2, py2lt, h, max_eq_left (not_lt.mp h)]

/-- C6 (amended): with series on both axes and no overrides, the shared
x-bound is the union of the two axes' x-ranges extended by `xpad`, except
that the upper bound is never less than the lower bound plus the
zero-width guard `EPS`; with series on one axis only, that axis alone
determines the x-bound (same guard). -/
theorem redraw_shared_xbound (g : Graph) (m0 M0 m1 M1 : ℚ)
    (h0 : axesFlag g 0 = true) (h1 : axesFlag g 1 = true)
    (hb : g.bbox = Box.unset) (hb2 : g.bbox2 = Box.unset)
    (e0 : (mergedBox g 0).x0 = some m0) (e1 : (mergedBox g 0).x1 = some M0)
    (f0 : (mergedBox g 1).x0 = some m1) (f1 : (mergedBox g 1).x1 = some M1) :
    redrawX g = RedrawX.ok (min m0 m1 - g.xpad)
      (max (min m0 m1 - g.xpad + EPS) (max M0 M1 + g.xpad)) ∧
    (min m0 m1 - g.xpad + EPS ≤ max M0 M1 + g.xpad →
      redrawX g = RedrawX.ok (min m0 m1 - g.xpad) (max M0 M1 + g.xpad)) ∧
    (∀ g2 : Graph, axesFlag g2 0 = true → axesFlag g2 1 = false →
      g2.bbox = Box.unset →
      ∀ a b, (mergedBox g2 0).x0 = some a → (mergedBox g2 0).x1 = some b →
        redrawX g2 = RedrawX.ok (a - g2.xpad) (max (a - g2.xpad + EPS) (b + g2.xpad))) ∧
    (∀ g2 : Graph, axesFlag g2 0 = false → axesFlag g2 1 = true →
      g2.bbox2 = Box.unset →
      ∀ a b, (mergedBox g2 1).x0 = some a → (mergedBox g2 1).x1 = some b →
        redrawX g2 = RedrawX.ok (a - g2.xpad) (max (a - g2.xpad + EPS) (b + g2.xpad))) := by
  have hmain : redrawX g = RedrawX.ok (min m0 m1 - g.xpad)
      (max (min m0 m1 - g.xpad + EPS) (max M0 M1 + g.xpad)) := by
    unfold redrawX
    rw [h0, h1, e0, f0, e1, f1, hb, hb2, pymin2_some, pymax2_some]
    simp [coalesce, Box.unset]
  refine ⟨hmain, ?_, ?_, ?_⟩
  · intro hle
    rw [hmain, max_eq_right hle]
  · intro g2 k0 k1 kb a b ke0 ke1
    unfold redrawX
    rw [k0, k1, ke0, ke1, kb]
    simp [coalesce, Box.unset]
  · intro g2 k0 k1 kb2 a b ke0 ke1
    unfold redrawX
    rw [k0, k1, ke0, ke1, kb2]
    simp [coalesce, Box.unset]

/-- C6 witness: axis-0 range `[0,10]`, axis-1 range `[5,20]`, `xpad = 0`,
no overrides: the shared x-bound is `[0, 20]`. -/
theorem redraw_shared_xbound_witness : redrawX gUnion = RedrawX.ok 0 20 := by
  have h := (redraw_shared_xbound gUnion 0 10 5 20
    (by decide) (by decide) rfl rfl (by decide) (by decide) (by decide) (by decide)).2.1
    (by norm_num [gUnion, plainGraph, EPS])
  rw [h]
  norm_num [gUnion, plainGraph]

/-- C6 counterexample: two degenerate coinciding x-ranges `[5,5]` with
`xpad = 0`: the code returns `[5, 5 + EPS]`, not the union `[5, 5]` the
claim states. -/
theorem redraw_xbound_eps_guard_ce :
    redrawX gCoincide = RedrawX.ok 5 (5 + EPS) ∧
    redrawX gCoincide ≠ RedrawX.ok 5 5 ∧ (5 : ℚ) + EPS ≠ 5 := by
  have heps : (5 : ℚ) + EPS ≠ 5 := by norm_num [EPS]
  have h : redrawX gCoincide = RedrawX.ok 5 (5 + EPS) := by
    norm_num [gCoincide, redrawX, plainGraph, clampedSeries, mkSeries, axesFlag, mergedBox,
      update_bbox, Box.unset, py2lt, pymin2, pymax2, coalesce, EPS]
  refine ⟨h, ?_, heps⟩
  rw [h]
  simp [heps]

/-- C9 (amended): `redraw` is a silent no-op exactly on the no-series
path: when the graph has no series objects at all, nothing is computed or
applied. -/
theorem redraw_empty_series_noop (g : Graph) (h : g.series = []) :
    redraw g = RedrawResult.noop := by
  have h0 : axesFlag g 0 = false := by simp [axesFlag, h]
  have h1 : axesFlag g 1 = false := by simp [axesFlag, h]
  unfold redraw redrawX
  rw [h0, h1]
  simp

/-- C9 witness: redraw on a graph with an empty series list. -/
theorem redraw_empty_series_noop_witness : redraw gNoSeries = RedrawResult.noop :=
  redraw_empty_series_noop gNoSeries rfl

/-- C9 counterexample: a graph whose single series has clamp values but no
data points: no series has any points, yet `redraw` computes and applies
axis bounds instead of being a no-op. -/
theorem redraw_pointless_series_ce :
    (∀ s ∈ gPointless.series, s.X = []) ∧
    redraw gPointless = RedrawResult.update (some (0, 10, 0, 1)) none ∧
    redraw gPointless ≠ RedrawResult.noop := by
  have h : redraw gPointless = RedrawResult.update (some (0, 10, 0, 1)) none := by
    norm_num [gPointless, redraw, redrawX, plainGraph, clampedSeries, mkSeries, axesFlag,
      mergedBox, update_bbox, Box.unset, py2lt, pymin2, pymax2, coalesce, EPS]
  refine ⟨?_, h, ?_⟩
  · intro s hs
    simp only [gPointless, plainGraph, clampedSeries, mkSeries, List.mem_singleton] at hs
    rw [hs]
  · rw [h]
    simp

/-- C10: with series on both axes and both x-entries of the secondary
override `bbox2` set, the shared x-bound is taken from `bbox2` (up to the
zero-width guard) and is independent of the primary override `bbox`. -/
theorem redraw_bbox2_precedence (g : Graph) (u v m0 M0 m1 M1 : ℚ)
    (h0 : axesFlag g 0 = true) (h1 : axesFlag g 1 = true)
    (hu : g.bbox2.x0 = some u) (hv : g.bbox2.x1 = some v)
    (e0 : (mergedBox g 0).x0 = some m0) (e1 : (mergedBox g 0).x1 = some M0)
    (f0 : (mergedBox g 1).x0 = some m1) (f1 : (mergedBox g 1).x1 = some M1) :
    redrawX g = RedrawX.ok u (max (u + EPS) v) ∧
    ∀ b : Box, redrawX { g with bbox := b } = RedrawX.ok u (max (u + EPS) v) := by
  constructor
  · unfold redrawX
    rw [h0, h1, e0, f0, e1, f1, pymin2_some, pymax2_some, hu, hv]
    simp [coalesce]
  · intro b
    have h0' : axesFlag { g with bbox := b } 0 = true := h0
    have h1' : axesFlag { g with bbox := b } 1 = true := h1
    have hu' : ({ g with bbox := b } : Graph).bbox2.x0 = some u := hu
    have hv' : ({ g with bbox := b } : Graph).bbox2.x1 = some v := hv
    have e0' : (mergedBox { g with bbox := b } 0).x0 = some m0 := e0
    have e1' : (mergedBox { g with bbox := b } 0).x1 = some M0 := e1
    have f0' : (mergedBox { g with bbox := b } 1).x0 = some m1 := f0
    have f1' : (mergedBox { g with bbox := b } 1).x1 = some M1 := f1
    unfold redrawX
    rw [h0', h1', e0', f0', e1', f1', pymin2_some, pymax2_some, hu', hv']
    simp [coalesce]

/-- C10 witness: `bbox = [100, None, 200, None]` and
`bbox2 = [1, None, 9, None]` on a two-axis graph: the shared x-bound is
`[1, 9]`, from `bbox2`. -/
theorem redraw_bbox2_precedence_witness : redrawX gOverride = RedrawX.ok 1 9 := by
  have h := (redraw_bbox2_precedence gOverride 1 9 0 10 5 20
    (by decide) (by decide) rfl rfl (by decide) (by decide) (by decide) (by decide)).1
  rw [h]
  rw [max_eq_right (by norm_num [EPS])]

end ACWX
